import Mathlib

/-!
Shallow embedding of the GEM-rs greenhouse controller core
(src/src/main.rs and src/src/preferences.rs) together with proofs about
the claims of the natural-language specification.

Integer convention: the Rust source stores every clock/preference field in
`u8` (the year in `u16`).  We model these fields as `Nat`.  On the
normalized domains quantified over by the theorems below every
intermediate value the source computes stays far below 2^8 (resp. 2^16
for the year, which the spec treats as an unbounded "unsigned" counter),
so `Nat` arithmetic coincides with the source's unsigned arithmetic
there; overflow wrapping is therefore not modelled.
-/

/-- The six-field date tuple `(u8, u8, u8, u8, u8, u16)` of
`Preferences.date` (src/src/main.rs:768).  Positional fields of the Rust
tuple: `.0` = sec, `.1` = min, `.2` = hour, `.3` = day, `.4` = month,
`.5` = year. -/
structure DateTuple where
  sec : Nat
  min : Nat
  hour : Nat
  day : Nat
  month : Nat
  year : Nat
deriving DecidableEq, Repr

/-- The four-field watering tuple `Option<(u8, u8, u8, u8)>` of
`Preferences.watering` (src/src/main.rs:769).  Positional fields of the
Rust tuple: `.0` = start minute, `.1` = start hour, `.2` = end minute,
`.3` = end hour. -/
structure WateringTuple where
  startMin : Nat
  startHour : Nat
  endMin : Nat
  endHour : Nat
deriving DecidableEq, Repr

/-- `Preferences` (src/src/main.rs:765-770): temperature range, humidity
range, date tuple, optional watering window. -/
structure Preferences where
  temperature : Nat × Nat
  humidity : Nat × Nat
  date : DateTuple
  watering : Option WateringTuple
deriving DecidableEq, Repr

/-- `Default for Preferences` (src/src/main.rs:772-781): temperature
`(60, 80)`, humidity `(60, 70)`, date `(0, 0, 0, 1, 1, 2000)`, no
watering window. -/
def Preferences.default : Preferences :=
  { temperature := (60, 80)
    humidity := (60, 70)
    date := ⟨0, 0, 0, 1, 1, 2000⟩
    watering := none }

/-- The date tuple of the `Default for Preferences` impl of the library
crate (src/src/preferences.rs:19-28), which seeds
`date: (0, 0, 0, 0, 0, 2000)` — a zero-based day/month encoding whose
display projection (src/src/preferences.rs:107-108) adds one to the day
and month fields.  The library module is not linked into the binary
entry point, which uses its own `Preferences` copy above. -/
def preferences_lib_default_date : DateTuple :=
  ⟨0, 0, 0, 0, 0, 2000⟩

/-- `is_leap_year` (src/src/main.rs:847-849, src/src/preferences.rs:131-133). -/
def is_leap_year (year : Nat) : Bool :=
  year % 4 == 0 && (year % 100 != 0 || year % 400 == 0)

/-- `get_days_in_month` (src/src/main.rs:866-872,
src/src/preferences.rs:150-162).  The source reads the month and year
out of `self.date.4` / `self.date.5`; we pass them explicitly. -/
def get_days_in_month (month year : Nat) : Nat :=
  match month with
  | 2 => if is_leap_year year then 29 else 28
  | 4 | 6 | 9 | 11 => 30
  | _ => 31

theorem get_days_in_month_ge (month year : Nat) :
    28 ≤ get_days_in_month month year := by
  unfold get_days_in_month
  split <;> (try split) <;> omega

theorem get_days_in_month_cases (month year : Nat) :
    get_days_in_month month year = 28 ∨ get_days_in_month month year = 29 ∨
    get_days_in_month month year = 30 ∨ get_days_in_month month year = 31 := by
  unfold get_days_in_month
  split <;> (try split) <;> omega

/-- The body of the day/month rollover `loop` of `tick_time`
(src/src/main.rs:811-825), written with a structural fuel argument.
Each pass of the loop either exits (`day ≤ days_in_month`) or removes at
least 28 from `day`, so with fuel `day` the base arm `| 0, ...` is only
ever reached with `day = 0`, where the loop guard `day > days_in_month`
is false and the loop would exit with the same result. -/
def rollDayMonthAux : Nat → Nat → Nat → Nat → Nat × Nat × Nat
  | 0, day, month, year => (day, month, year)
  | fuel + 1, day, month, year =>
    if get_days_in_month month year < day then
      -- self.date.3 -= days_in_month; self.date.4 += 1;
      -- if self.date.4 > 12 { self.date.4 = 1; self.date.5 += 1; }
      if month + 1 > 12 then
        rollDayMonthAux fuel (day - get_days_in_month month year) 1 (year + 1)
      else
        rollDayMonthAux fuel (day - get_days_in_month month year) (month + 1) year
    else (day, month, year)

/-- The day/month rollover `loop` of `tick_time` (src/src/main.rs:811-825). -/
def rollDayMonth (day month year : Nat) : Nat × Nat × Nat :=
  rollDayMonthAux day day month year

/-- `tick_time` (src/src/main.rs:785-829, src/src/preferences.rs:33-84):
advance the date tuple by one second, with each early `return` of the
source rendered as the `else` arm of the corresponding carry test. -/
def tick_time (d : DateTuple) : DateTuple :=
  let s := d.sec + 1
  if 60 ≤ s then
    let m := d.min + s / 60
    let s := s % 60
    if 60 ≤ m then
      let h := d.hour + m / 60
      let m := m % 60
      if 24 ≤ h then
        let day := d.day + h / 24
        let h := h % 24
        let r := rollDayMonth day d.month d.year
        ⟨s, m, h, r.1, r.2.1, r.2.2⟩
      else ⟨s, m, h, d.day, d.month, d.year⟩
    else ⟨s, m, d.hour, d.day, d.month, d.year⟩
  else ⟨s, d.min, d.hour, d.day, d.month, d.year⟩

/-- `Preferences::tick_time` mutates only the date tuple of the state. -/
def Preferences.tickTime (p : Preferences) : Preferences :=
  { p with date := tick_time p.date }

/-- `change_days` (src/src/main.rs:854-862, src/src/preferences.rs:138-146). -/
def change_days (p : Preferences) (increment : Bool) : Nat :=
  let days_in_month := get_days_in_month p.date.month p.date.year
  if increment then
    (p.date.day + 1) % days_in_month
  else
    (p.date.day + (days_in_month - 1)) % days_in_month

/-- `is_watering_time` (src/src/main.rs:877-886,
src/src/preferences.rs:167-176): minute within the two minute bounds and
hour within the two hour bounds, each compared independently. -/
def is_watering_time (p : Preferences) : Bool :=
  match p.watering with
  | some watering_time =>
    decide (watering_time.startMin ≤ p.date.min) && -- Minutes are not too small
    decide (p.date.min ≤ watering_time.endMin) &&   -- Minutes are not too large
    decide (watering_time.startHour ≤ p.date.hour) && -- Hours are not too small
    decide (p.date.hour ≤ watering_time.endHour)    -- Hours are not too large
  | none => false

/-- `set_default_watering_time` (src/src/main.rs:902-904): watering
window 00:00 - 01:00, i.e. tuple `(0, 0, 0, 1)`. -/
def set_default_watering_time (p : Preferences) : Preferences :=
  { p with watering := some ⟨0, 0, 0, 1⟩ }

/-- The temperature edit's Up-press branch (src/src/main.rs:186-196):
the active bound is incremented only when it is `< 1`. -/
def temperature_up_press (editing_lower : Bool) (t : Nat × Nat) : Nat × Nat :=
  if editing_lower then
    if t.1 < 1 then (t.1 + 1, t.2) else t
  else
    if t.2 < 1 then (t.1, t.2 + 1) else t

/-- The temperature/humidity commit legality check
(src/src/main.rs:217-222 and 271-276): swap the pair in place when the
low bound exceeds the high bound. -/
def commit_range (r : Nat × Nat) : Nat × Nat :=
  if r.1 > r.2 then (r.2, r.1) else r

/-- The minute stepper of the date edit, Up branch (src/src/main.rs:297). -/
def minute_up (v : Nat) : Nat := (v + 1) % 60

/-- The minute stepper of the date edit, Down branch (src/src/main.rs:300). -/
def minute_down (v : Nat) : Nat := (v + 59) % 60

/-- Replace the day field of the date tuple, as the date edit's
`preferences.date.3 = preferences.change_days(..)` assignment does
(src/src/main.rs:349). -/
def setDay (p : Preferences) (d : Nat) : Preferences :=
  { p with date := { p.date with day := d } }

/-- The sensor-action handler's actuation sequence
(src/src/main.rs:531-556), as a pure function from the preferences and
the fresh temperature/humidity reading to the final
`(roof_vent, sprinklers)` output levels.  Each `if`/`else` pair of the
source sets the corresponding pin high/low; the watering-time check
re-assigns the sprinkler pin, discarding the humidity decision, which
the shadowing `let` mirrors. -/
def sensor_action (p : Preferences) (temp humidity : Nat) : Bool × Bool :=
  let roof_vent := if temp < p.temperature.1 ∨ temp > p.temperature.2 then true else false
  let sprinklers := if humidity < p.humidity.1 ∨ humidity > p.humidity.2 then true else false
  let sprinklers := if is_watering_time p then true else false
  (roof_vent, sprinklers)

/-- The watering-schedule edit's Up-press branch (src/src/main.rs:441-461).
When no window exists, `set_default_watering_time` seeds one.  Otherwise
the source executes, e.g. for field 0,
`preferences.watering.unwrap().1 = (preferences.watering.unwrap().1 + 1) % 24;`:
`Option::unwrap` returns a by-value copy of the `Copy` tuple, so the
assignment writes into a discarded temporary and `preferences.watering`
itself is left unchanged — every `match` arm is therefore a no-op on the
state. -/
def watering_up_press (index : Nat) (p : Preferences) : Preferences :=
  if p.watering.isNone then set_default_watering_time p
  else
    match index with
    | 0 => p -- (start hour + 1) % 24 computed on a temporary copy, then dropped
    | 1 => p -- (start min + 1) % 60, likewise dropped
    | 2 => p -- (end hour + 1) % 24, likewise dropped
    | 3 => p -- (end min + 1) % 60, likewise dropped
    | _ => p

/-- The watering-schedule edit's Down-press branch
(src/src/main.rs:462-482), with the same discarded-temporary behaviour
as the Up branch. -/
def watering_down_press (index : Nat) (p : Preferences) : Preferences :=
  if p.watering.isNone then set_default_watering_time p
  else
    match index with
    | 0 => p -- (start hour + 23) % 24 computed on a temporary copy, then dropped
    | 1 => p -- (start min + 59) % 60, likewise dropped
    | 2 => p -- (end hour + 23) % 24, likewise dropped
    | 3 => p -- (end min + 59) % 60, likewise dropped
    | _ => p

/-- One debounced sample of the three buttons inside an edit loop. -/
structure BtnSample where
  up : Bool
  down : Bool
  sel : Bool
deriving DecidableEq, Repr

/-- Result of running the watering-schedule edit session on a finite
list of button samples. -/
inductive WateringEditResult where
  | outOfInput
  | panicked
  | done (p : Preferences)
deriving DecidableEq, Repr

/-- The commit legality check at the end of the watering-schedule edit
(src/src/main.rs:492-499).  When `remove` is false the source calls
`preferences.watering.unwrap()`, which panics on `None`; the `panicked`
result models that. -/
def watering_commit (remove : Bool) (p : Preferences) : WateringEditResult :=
  if remove then .done p
  else
    match p.watering with
    | none => .panicked
    | some w =>
      if w.startHour > w.endHour ∨ (w.startHour = w.endHour ∧ w.startMin > w.endMin) then
        .done { p with watering := some ⟨w.endMin, w.endHour, w.startMin, w.startHour⟩ }
      else .done p

/-- The inner per-field `loop` of the watering-schedule edit
(src/src/main.rs:423-487) over a finite list of button samples.  Each
pass ticks the clock on alternating samples, then tests the
simultaneous Up+Down delete gesture, then Up, Down and Select in order.
Returns the state, the toggled tick flag, the `remove` flag and the
unconsumed input; `none` when the input list ends with the loop still
running. -/
def watering_field_loop :
    List BtnSample → Nat → Bool → Preferences →
    Option (Preferences × Bool × Bool × List BtnSample)
  | [], _, _, _ => none
  | b :: rest, index, update_date, p =>
    let p := if update_date then p.tickTime else p
    let update_date := !update_date
    if b.up && b.down then some (p, update_date, true, rest)
    else if b.up then watering_field_loop rest index update_date (watering_up_press index p)
    else if b.down then watering_field_loop rest index update_date (watering_down_press index p)
    else if b.sel then some (p, update_date, false, rest)
    else watering_field_loop rest index update_date p

/-- The `for index in 0..4` field loop of the watering-schedule edit
(src/src/main.rs:422-491) followed by the commit legality check: a
`remove` exit breaks out early and skips the legality check. -/
def watering_edit_fields :
    List Nat → List BtnSample → Bool → Preferences → WateringEditResult
  | [], _, _, p => watering_commit false p
  | index :: restIdx, inputs, update_date, p =>
    match watering_field_loop inputs index update_date p with
    | none => .outOfInput
    | some (p2, ud, remove, rest) =>
      if remove then watering_commit true p2
      else watering_edit_fields restIdx rest ud p2

/-- The whole watering-schedule edit session (src/src/main.rs:420-499):
fields 0, 1, 2, 3 in order, `update_date` initially false
(src/src/main.rs:165). -/
def watering_edit (inputs : List BtnSample) (p : Preferences) : WateringEditResult :=
  watering_edit_fields [0, 1, 2, 3] inputs false p

/-! ## Clock lemmas -/

/-- The date state with time-of-day `t` seconds (for `t < 86400`:
`sec = t % 60`, `min = t / 60 % 60`, `hour = t / 3600`) on the given
calendar day. -/
def mkState (t day month year : Nat) : DateTuple :=
  ⟨t % 60, t / 60 % 60, t / 3600, day, month, year⟩

/-- Modelled from the spec: "86400 applications of `advance_one_second`
equal exactly one calendar day advanced" — the calendar successor of a
day, using the source's `get_days_in_month`. -/
def specNextDay (day month year : Nat) : Nat × Nat × Nat :=
  if day < get_days_in_month month year then (day + 1, month, year)
  else if month < 12 then (1, month + 1, year)
  else (1, 1, year + 1)

/-- Normalization invariant of the date tuple (spec §3): every field
within bounds and the day within the current month's day count. -/
def normalizedDate (d : DateTuple) : Prop :=
  d.sec ≤ 59 ∧ d.min ≤ 59 ∧ d.hour ≤ 23 ∧
  1 ≤ d.month ∧ d.month ≤ 12 ∧
  1 ≤ d.day ∧ d.day ≤ get_days_in_month d.month d.year

instance (d : DateTuple) : Decidable (normalizedDate d) := by
  unfold normalizedDate; infer_instance

theorem rollDayMonthAux_noroll (fuel day month year : Nat)
    (h : ¬ get_days_in_month month year < day) :
    rollDayMonthAux fuel day month year = (day, month, year) := by
  cases fuel <;> simp [rollDayMonthAux, h]

theorem rollDayMonth_le (day month year : Nat)
    (h : day ≤ get_days_in_month month year) :
    rollDayMonth day month year = (day, month, year) :=
  rollDayMonthAux_noroll day day month year (by omega)

theorem rollDayMonthAux_step (fuel day month year : Nat)
    (h : get_days_in_month month year < day) :
    rollDayMonthAux (fuel + 1) day month year =
      if month + 1 > 12 then
        rollDayMonthAux fuel (day - get_days_in_month month year) 1 (year + 1)
      else
        rollDayMonthAux fuel (day - get_days_in_month month year) (month + 1) year := by
  simp [rollDayMonthAux, h]

theorem rollDayMonth_succ_dim (month year : Nat) (h2 : month ≤ 12) :
    rollDayMonth (get_days_in_month month year + 1) month year =
      if month = 12 then (1, 1, year + 1) else (1, month + 1, year) := by
  have hge := get_days_in_month_ge month year
  obtain ⟨k, hk⟩ : ∃ k, get_days_in_month month year = k + 1 :=
    ⟨get_days_in_month month year - 1, by omega⟩
  unfold rollDayMonth
  rw [hk, rollDayMonthAux_step (k + 1) (k + 1 + 1) month year (by omega), hk]
  have h1 : k + 1 + 1 - (k + 1) = 1 := by omega
  rw [h1]
  by_cases hm : month = 12
  · subst hm
    rw [if_pos (by omega),
      rollDayMonthAux_noroll _ _ _ _ (by have := get_days_in_month_ge 1 (year + 1); omega),
      if_pos rfl]
  · rw [if_neg (by omega),
      rollDayMonthAux_noroll _ _ _ _ (by have := get_days_in_month_ge (month + 1) year; omega),
      if_neg hm]

theorem specNextDay_normalized (day month year : Nat)
    (h1 : 1 ≤ month) (h2 : month ≤ 12) (h3 : 1 ≤ day)
    (h4 : day ≤ get_days_in_month month year) :
    1 ≤ (specNextDay day month year).2.1 ∧ (specNextDay day month year).2.1 ≤ 12 ∧
    1 ≤ (specNextDay day month year).1 ∧
    (specNextDay day month year).1 ≤
      get_days_in_month (specNextDay day month year).2.1 (specNextDay day month year).2.2 := by
  have g1 := get_days_in_month_ge (month + 1) year
  have g2 := get_days_in_month_ge 1 (year + 1)
  unfold specNextDay
  split_ifs with ha hb <;> dsimp only <;> omega

/-- A tick with the second hand below 59 only increments the second. -/
theorem tick_time_sec (s m h day month year : Nat) (hs : s ≤ 58) :
    tick_time ⟨s, m, h, day, month, year⟩ = ⟨s + 1, m, h, day, month, year⟩ := by
  simp only [tick_time]
  rw [if_neg (by omega)]

/-- A tick at second 59 with the minute hand below 59 carries into the
minute. -/
theorem tick_time_min (m h day month year : Nat) (hm : m ≤ 58) :
    tick_time ⟨59, m, h, day, month, year⟩ = ⟨0, m + 1, h, day, month, year⟩ := by
  simp only [tick_time]
  split_ifs <;> simp only [DateTuple.mk.injEq] <;> omega

/-- A tick at 59 seconds, 59 minutes with the hour below 23 carries
into the hour. -/
theorem tick_time_hour (h day month year : Nat) (hh : h ≤ 22) :
    tick_time ⟨59, 59, h, day, month, year⟩ = ⟨0, 0, h + 1, day, month, year⟩ := by
  simp only [tick_time]
  split_ifs <;> simp only [DateTuple.mk.injEq] <;> omega

/-- The tick at 23:59:59 rolls the day through the rollover loop. -/
theorem tick_time_day_roll (day month year : Nat) :
    tick_time ⟨59, 59, 23, day, month, year⟩ =
      ⟨0, 0, 0, (rollDayMonth (day + 1) month year).1,
        (rollDayMonth (day + 1) month year).2.1,
        (rollDayMonth (day + 1) month year).2.2⟩ := by
  simp only [tick_time]
  norm_num

/-- One tick below the midnight boundary: the time-of-day advances by
one second and the calendar day is untouched. -/
theorem tick_time_mk (t day month year : Nat) (h : t + 1 < 86400) :
    tick_time (mkState t day month year) = mkState (t + 1) day month year := by
  unfold mkState
  rcases Nat.lt_or_ge (t % 60) 59 with h1 | h1
  · rw [tick_time_sec _ _ _ _ _ _ (by omega)]
    simp only [DateTuple.mk.injEq, and_true]
    omega
  · have h1e : t % 60 = 59 := by omega
    rcases Nat.lt_or_ge (t / 60 % 60) 59 with h2 | h2
    · rw [h1e, tick_time_min _ _ _ _ _ (by omega)]
      simp only [DateTuple.mk.injEq, and_true]
      omega
    · have h2e : t / 60 % 60 = 59 := by omega
      have h3 : t / 3600 ≤ 22 := by omega
      rw [h1e, h2e, tick_time_hour _ _ _ _ (by omega)]
      simp only [DateTuple.mk.injEq, and_true]
      omega

/-- The midnight tick: rolls to second zero of the spec's next calendar
day. -/
theorem tick_time_midnight (day month year : Nat)
    (h2 : month ≤ 12) (h3 : 1 ≤ day)
    (h4 : day ≤ get_days_in_month month year) :
    tick_time (mkState 86399 day month year) =
      mkState 0 (specNextDay day month year).1 (specNextDay day month year).2.1
        (specNextDay day month year).2.2 := by
  have hmk : mkState 86399 day month year = ⟨59, 59, 23, day, month, year⟩ := by
    norm_num [mkState]
  have hmk0 : mkState 0 (specNextDay day month year).1 (specNextDay day month year).2.1
      (specNextDay day month year).2.2 =
      ⟨0, 0, 0, (specNextDay day month year).1, (specNextDay day month year).2.1,
        (specNextDay day month year).2.2⟩ := by
    norm_num [mkState]
  rw [hmk, tick_time_day_roll, hmk0]
  rcases Nat.lt_or_ge day (get_days_in_month month year) with hlt | hge2
  · rw [rollDayMonth_le (day + 1) month year (by omega)]
    unfold specNextDay
    rw [if_pos hlt]
  · have hday : day = get_days_in_month month year := by omega
    subst hday
    by_cases hm : month = 12
    · rw [rollDayMonth_succ_dim month year h2, if_pos hm]
      unfold specNextDay
      rw [if_neg (show ¬ get_days_in_month month year < get_days_in_month month year from
          lt_irrefl _),
        if_neg (show ¬ month < 12 by omega)]
    · rw [rollDayMonth_succ_dim month year h2, if_neg hm]
      unfold specNextDay
      rw [if_neg (show ¬ get_days_in_month month year < get_days_in_month month year from
          lt_irrefl _),
        if_pos (show month < 12 by omega)]

/-- Iterating below the midnight boundary. -/
theorem tick_time_iter (j : Nat) : ∀ t day month year : Nat, t + j < 86400 →
    tick_time^[j] (mkState t day month year) = mkState (t + j) day month year := by
  induction j with
  | zero => intro t day month year _; simp
  | succ n ih =>
    intro t day month year h
    rw [Function.iterate_succ_apply, tick_time_mk t day month year (by omega),
      ih (t + 1) day month year (by omega)]
    congr 1
    omega

/-- A full day of ticks from an arbitrary time-of-day: the time-of-day
returns and the calendar advances to the spec's next day. -/
theorem tick_time_day (t day month year : Nat) (ht : t < 86400)
    (h1 : 1 ≤ month) (h2 : month ≤ 12) (h3 : 1 ≤ day)
    (h4 : day ≤ get_days_in_month month year) :
    tick_time^[86400] (mkState t day month year) =
      mkState t (specNextDay day month year).1 (specNextDay day month year).2.1
        (specNextDay day month year).2.2 := by
  have hsplit : (86400 : Nat) = t + (1 + (86399 - t)) := by omega
  rw [hsplit, Function.iterate_add_apply, Function.iterate_add_apply]
  have e1 : tick_time^[86399 - t] (mkState t day month year) =
      mkState 86399 day month year := by
    have := tick_time_iter (86399 - t) t day month year (by omega)
    rwa [show t + (86399 - t) = 86399 by omega] at this
  rw [e1, Function.iterate_one, tick_time_midnight day month year h2 h3 h4]
  have hn := specNextDay_normalized day month year h1 h2 h3 h4
  have := tick_time_iter t 0 (specNextDay day month year).1
    (specNextDay day month year).2.1 (specNextDay day month year).2.2 (by omega)
  rwa [Nat.zero_add] at this

/-- Any normalized date tuple is `mkState` of its time-of-day. -/
theorem normalized_eq_mkState (d : DateTuple) (h : normalizedDate d) :
    d = mkState (d.hour * 3600 + d.min * 60 + d.sec) d.day d.month d.year := by
  obtain ⟨s, m, hh, day, month, year⟩ := d
  unfold normalizedDate at h
  dsimp only at h ⊢
  simp only [mkState, DateTuple.mk.injEq, and_true]
  omega

/-- Iterating whole days: `n` blocks of 86400 ticks advance the
calendar by `n` applications of `specNextDay`. -/
theorem tick_time_days (n : Nat) : ∀ t day month year : Nat, t < 86400 →
    1 ≤ month → month ≤ 12 → 1 ≤ day → day ≤ get_days_in_month month year →
    (tick_time^[86400])^[n] (mkState t day month year) =
      mkState t ((fun r : Nat × Nat × Nat => specNextDay r.1 r.2.1 r.2.2)^[n] (day, month, year)).1
        ((fun r : Nat × Nat × Nat => specNextDay r.1 r.2.1 r.2.2)^[n] (day, month, year)).2.1
        ((fun r : Nat × Nat × Nat => specNextDay r.1 r.2.1 r.2.2)^[n] (day, month, year)).2.2 := by
  induction n with
  | zero =>
    intro t day month year _ _ _ _ _
    simp only [Function.iterate_zero_apply]
  | succ n ih =>
    intro t day month year ht h1 h2 h3 h4
    have hn := specNextDay_normalized day month year h1 h2 h3 h4
    rw [Function.iterate_succ_apply, tick_time_day t day month year ht h1 h2 h3 h4,
      ih t (specNextDay day month year).1 (specNextDay day month year).2.1
        (specNextDay day month year).2.2 ht hn.1 hn.2.1 hn.2.2.1 hn.2.2.2,
      Function.iterate_succ_apply]

/-! ## Claim theorems -/

/-- C1 (counterexample): with the watering window 07:30-08:00 — tuple
`(start min 30, start hour 7, end min 0, end hour 8)` — and the clock at
07:45, `is_watering_time` returns false (the minute 45 fails the
`minute ≤ end minute = 0` test), contradicting the claim that it
returns true at 07:45. -/
theorem c1_watering_time_cex :
    is_watering_time
      { temperature := (60, 80), humidity := (60, 70),
        date := ⟨0, 45, 7, 1, 1, 2000⟩, watering := some ⟨30, 7, 0, 8⟩ } = false := by
  decide

/-- C1 (amended): `is_watering_time` is true iff a window is configured
and the minute lies between the start and end minutes and the hour lies
between the start and end hours, the minute and hour bounds tested
independently (a box test, not lexicographic hour:minute interval
containment); under these semantics the window 07:30-08:00 yields false
at 07:45 and at 08:01, and the result is false whenever no window is
configured. -/
theorem c1_watering_time_box :
    (∀ p : Preferences, is_watering_time p = true ↔
      ∃ w : WateringTuple, p.watering = some w ∧
        w.startMin ≤ p.date.min ∧ p.date.min ≤ w.endMin ∧
        w.startHour ≤ p.date.hour ∧ p.date.hour ≤ w.endHour) ∧
    is_watering_time
      { temperature := (60, 80), humidity := (60, 70),
        date := ⟨0, 45, 7, 1, 1, 2000⟩, watering := some ⟨30, 7, 0, 8⟩ } = false ∧
    is_watering_time
      { temperature := (60, 80), humidity := (60, 70),
        date := ⟨0, 1, 8, 1, 1, 2000⟩, watering := some ⟨30, 7, 0, 8⟩ } = false ∧
    (∀ p : Preferences, p.watering = none → is_watering_time p = false) := by
  refine ⟨?_, by decide, by decide, ?_⟩
  · intro p
    cases hw : p.watering with
    | none => simp [is_watering_time, hw]
    | some w => simp [is_watering_time, hw, and_assoc]
  · intro p hp
    simp [is_watering_time, hp]

/-- C2 (code bug): in the sensor handler the sprinkler output equals
`is_watering_time` alone, because the watering check's else branch
switches the sprinklers off and so discards the humidity decision.  At
the failing input — default preferences, temperature 70 inside the
(60, 80) range, humidity 80 outside the (60, 70) range, no watering
window — the humidity comparison turns the sprinklers on, yet the
handler ends with them off, where the claim requires them left on. -/
theorem c2_sensor_sprinkler_override :
    (∀ (p : Preferences) (temp humidity : Nat),
      (sensor_action p temp humidity).2 = is_watering_time p) ∧
    (sensor_action Preferences.default 70 80).2 = false ∧
    (80 < Preferences.default.humidity.1 ∨ 80 > Preferences.default.humidity.2) := by
  refine ⟨?_, by decide, by decide⟩
  intro p temp humidity
  unfold sensor_action
  cases h : is_watering_time p <;> simp [h]

/-- C5 (code bug): with a window already configured, the Up and Down
presses of the watering edit leave `preferences.watering` unchanged for
every field index — the source's `preferences.watering.unwrap().1 = …`
assignments mutate a discarded temporary copy — whereas the claim
requires, e.g., an Up press at the start-hour field to store
(0 + 1) % 24 = 1 back into the window. -/
theorem c5_watering_press_noop :
    (∀ (index : Nat) (p : Preferences), p.watering.isSome = true →
      watering_up_press index p = p ∧ watering_down_press index p = p) ∧
    (watering_up_press 0
      { temperature := (60, 80), humidity := (60, 70),
        date := ⟨0, 0, 0, 1, 1, 2000⟩, watering := some ⟨0, 0, 0, 1⟩ }).watering
      = some ⟨0, 0, 0, 1⟩ ∧
    some (⟨0, 0, 0, 1⟩ : WateringTuple) ≠ some ⟨0, 1, 0, 1⟩ := by
  refine ⟨?_, by decide, by decide⟩
  intro index p hp
  have h0 : p.watering.isNone = false := by
    cases hw : p.watering <;> simp_all
  constructor
  · simp only [watering_up_press, h0, Bool.false_eq_true, if_false]
    rcases index with _ | _ | _ | _ | n <;> rfl
  · simp only [watering_down_press, h0, Bool.false_eq_true, if_false]
    rcases index with _ | _ | _ | _ | n <;> rfl

/-- C5 (witness): the no-op theorem applied at the seeded default
window and the start-hour field. -/
theorem c5_watering_press_noop_witness :
    watering_up_press 0
      { temperature := (60, 80), humidity := (60, 70),
        date := ⟨0, 0, 0, 1, 1, 2000⟩, watering := some ⟨0, 0, 0, 1⟩ } =
      { temperature := (60, 80), humidity := (60, 70),
        date := ⟨0, 0, 0, 1, 1, 2000⟩, watering := some ⟨0, 0, 0, 1⟩ } :=
  (c5_watering_press_noop.1 0 _ (by decide)).1

/-- C6: the threshold commit returns the sorted pair: afterwards
low ≤ high, the set of the two values is preserved, an already-legal
pair is unchanged, and the correction is total (never rejects). -/
theorem c6_commit_range_sorts (l h : Nat) :
    commit_range (l, h) = (min l h, max l h) := by
  unfold commit_range
  dsimp only
  split_ifs with hlh <;> simp only [Prod.mk.injEq] <;> constructor <;> omega

/-- C7 (counterexample): for the in-range day 1 of January 2001 the day
stepper's decrement returns (1 + 30) % 31 = 0, not the claimed wrap to
the maximum day 31 of the month. -/
theorem c7_change_days_cex :
    change_days
      { temperature := (60, 80), humidity := (60, 70),
        date := ⟨0, 0, 0, 1, 1, 2001⟩, watering := none } false = 0 ∧
    (0 : Nat) ≠ 31 :=
  ⟨by decide, by decide⟩

/-- C7 (amended): the minute stepper satisfies the full wrap contract
on 0-59, while `change_days` is a modulus stepper on the zero-based
range 0 … days-in-month − 1: increment at days-in-month − 1 wraps to 0,
decrement at 0 wraps to days-in-month − 1, and increment followed by
decrement is the identity exactly on that zero-based range (for the
one-based day values of the date model, decrement at day 1 and
increment-then-decrement at day = days-in-month land on 0 instead). -/
theorem c7_stepper_wrap_amended :
    minute_up 59 = 0 ∧ minute_down 0 = 59 ∧
    (∀ v : Nat, v ≤ 59 → minute_down (minute_up v) = v) ∧
    (∀ p : Preferences,
      p.date.day = get_days_in_month p.date.month p.date.year - 1 →
      change_days p true = 0) ∧
    (∀ p : Preferences, p.date.day = 0 →
      change_days p false = get_days_in_month p.date.month p.date.year - 1) ∧
    (∀ p : Preferences, p.date.day < get_days_in_month p.date.month p.date.year →
      change_days (setDay p (change_days p true)) false = p.date.day) := by
  refine ⟨by decide, by decide, ?_, ?_, ?_, ?_⟩
  · intro v hv
    unfold minute_up minute_down
    omega
  · intro p hp
    have hc := get_days_in_month_cases p.date.month p.date.year
    simp only [change_days, if_true]
    rcases hc with h | h | h | h <;> rw [h] <;> rw [h] at hp <;> omega
  · intro p hp
    have hc := get_days_in_month_cases p.date.month p.date.year
    simp only [change_days, Bool.false_eq_true, if_false]
    rcases hc with h | h | h | h <;> rw [h] <;> omega
  · intro p hlt
    have hc := get_days_in_month_cases p.date.month p.date.year
    simp only [change_days, setDay, if_true, Bool.false_eq_true, if_false]
    rcases hc with h | h | h | h <;> rw [h] at hlt ⊢ <;> omega

/-- C7 (witness): the amended stepper laws applied at minute 15 and at
day 5 of January 2000. -/
theorem c7_stepper_wrap_amended_witness :
    minute_down (minute_up 15) = 15 ∧
    change_days
      (setDay
        { temperature := (60, 80), humidity := (60, 70),
          date := ⟨0, 0, 0, 5, 1, 2000⟩, watering := none }
        (change_days
          { temperature := (60, 80), humidity := (60, 70),
            date := ⟨0, 0, 0, 5, 1, 2000⟩, watering := none } true)) false = 5 := by
  constructor
  · exact c7_stepper_wrap_amended.2.2.1 15 (by decide)
  · have := c7_stepper_wrap_amended.2.2.2.2.2
      { temperature := (60, 80), humidity := (60, 70),
        date := ⟨0, 0, 0, 5, 1, 2000⟩, watering := none } (by decide)
    simpa using this

/-- C8: the startup state seeds the clock at the fixed epoch
00:00:00, day 1, month 1, year 2000: the date tuple of
`Preferences.default` is (0, 0, 0, 1, 1, 2000), and that tuple is a
normalized date state. -/
theorem c8_default_epoch :
    Preferences.default.date = ⟨0, 0, 0, 1, 1, 2000⟩ ∧
    normalizedDate Preferences.default.date :=
  ⟨rfl, by decide⟩

/-- C10: in the temperature edit an Up press increments the active
bound only when it is strictly below 1 (that is, equal to 0); with the
active bound at 1 or more the press leaves both bounds unchanged, and
no bound is ever pushed above max(old value, 1). -/
theorem c10_temperature_up_capped :
    (∀ t : Nat × Nat, 1 ≤ t.1 → temperature_up_press true t = t) ∧
    (∀ t : Nat × Nat, 1 ≤ t.2 → temperature_up_press false t = t) ∧
    (∀ t : Nat × Nat, t.1 = 0 → temperature_up_press true t = (1, t.2)) ∧
    (∀ t : Nat × Nat, t.2 = 0 → temperature_up_press false t = (t.1, 1)) ∧
    (∀ (b : Bool) (t : Nat × Nat),
      (temperature_up_press b t).1 ≤ max t.1 1 ∧
      (temperature_up_press b t).2 ≤ max t.2 1) := by
  refine ⟨?_, ?_, ?_, ?_, ?_⟩
  · intro t ht
    simp only [temperature_up_press, if_true]
    rw [if_neg (by omega)]
  · intro t ht
    simp only [temperature_up_press, Bool.false_eq_true, if_false]
    rw [if_neg (by omega)]
  · intro t ht
    simp only [temperature_up_press, if_true]
    rw [if_pos (by omega), ht]
  · intro t ht
    simp only [temperature_up_press, Bool.false_eq_true, if_false]
    rw [if_pos (by omega), ht]
  · intro b t
    cases b <;> simp only [temperature_up_press, if_true, Bool.false_eq_true, if_false] <;>
      split_ifs <;> constructor <;> dsimp only <;> omega

/-- C10 (witness): the Up-press cap applied at the pair (0, 70). -/
theorem c10_temperature_up_capped_witness :
    temperature_up_press true (0, 70) = (1, 70) := by
  have := c10_temperature_up_capped.2.2.1 (0, 70) rfl
  simpa using this

set_option maxRecDepth 4000 in
/-- C3: for every normalized clock state, 86400 ticks leave the
time-of-day unchanged and advance the calendar by exactly one day
(months, years, February 29 in leap years and February 28 otherwise all
handled through `get_days_in_month`), and from the epoch state
(0, 0, 0, 1, 1, 2000), exactly 31 × 86400 ticks reach
(0, 0, 0, 1, 2, 2000). -/
theorem c3_tick_time_one_day :
    (∀ d : DateTuple, normalizedDate d →
      tick_time^[86400] d =
        ⟨d.sec, d.min, d.hour, (specNextDay d.day d.month d.year).1,
          (specNextDay d.day d.month d.year).2.1,
          (specNextDay d.day d.month d.year).2.2⟩) ∧
    tick_time^[31 * 86400] ⟨0, 0, 0, 1, 1, 2000⟩ = ⟨0, 0, 0, 1, 2, 2000⟩ := by
  constructor
  · intro d hd
    obtain ⟨s, m, hh, day, month, year⟩ := d
    unfold normalizedDate at hd
    dsimp only at hd ⊢
    obtain ⟨h1, h2, h3, h4, h5, h6, h7⟩ := hd
    have hmk := normalized_eq_mkState ⟨s, m, hh, day, month, year⟩
      ⟨h1, h2, h3, h4, h5, h6, h7⟩
    dsimp only at hmk
    rw [hmk, tick_time_day (hh * 3600 + m * 60 + s) day month year (by omega) h4 h5 h6 h7]
    simp only [mkState, DateTuple.mk.injEq, and_true, and_self]
    refine ⟨by omega, by omega, by omega⟩
  · have hmul : (31 : Nat) * 86400 = 86400 * 31 := by norm_num
    rw [hmul, Function.iterate_mul]
    have h0 : (⟨0, 0, 0, 1, 1, 2000⟩ : DateTuple) = mkState 0 1 1 2000 := rfl
    rw [h0, tick_time_days 31 0 1 1 2000 (by norm_num) (by norm_num) (by norm_num)
      (by norm_num) (by decide)]
    decide

/-- C3 (witness): the one-day theorem applied at the leap-day boundary
23:59:59 on 28 February 2000 (a leap year), landing on 29 February. -/
theorem c3_tick_time_one_day_witness :
    normalizedDate ⟨59, 59, 23, 28, 2, 2000⟩ ∧
    tick_time^[86400] ⟨59, 59, 23, 28, 2, 2000⟩ = ⟨59, 59, 23, 29, 2, 2000⟩ := by
  refine ⟨by decide, ?_⟩
  have hnd : specNextDay 28 2 2000 = (29, 2, 2000) := by decide
  have h := c3_tick_time_one_day.1 ⟨59, 59, 23, 28, 2, 2000⟩ (by decide)
  rw [hnd] at h
  exact h

/-- C4: one application of `tick_time` maps a normalized clock state —
seconds and minutes at most 59, hour at most 23, month 1-12, day
between 1 and the current month's day count under the
divisible-by-4-and-(not-100-or-400) leap rule — to a normalized clock
state again. -/
theorem c4_tick_time_normalized (d : DateTuple) (hd : normalizedDate d) :
    normalizedDate (tick_time d) := by
  obtain ⟨s, m, hh, day, month, year⟩ := d
  unfold normalizedDate at hd
  dsimp only at hd
  obtain ⟨h1, h2, h3, h4, h5, h6, h7⟩ := hd
  have hmk := normalized_eq_mkState ⟨s, m, hh, day, month, year⟩
    ⟨h1, h2, h3, h4, h5, h6, h7⟩
  dsimp only at hmk
  rw [hmk]
  rcases Nat.lt_or_ge (hh * 3600 + m * 60 + s + 1) 86400 with hlt | hge
  · rw [tick_time_mk (hh * 3600 + m * 60 + s) day month year hlt]
    unfold normalizedDate mkState
    dsimp only
    exact ⟨by omega, by omega, by omega, h4, h5, h6, h7⟩
  · have hTe : hh * 3600 + m * 60 + s = 86399 := by omega
    rw [hTe, tick_time_midnight day month year h5 h6 h7]
    have hn := specNextDay_normalized day month year h4 h5 h6 h7
    unfold normalizedDate mkState
    dsimp only
    exact ⟨by omega, by omega, by omega, hn.1, hn.2.1, hn.2.2.1, hn.2.2.2⟩

/-- C4 (witness): normalization is preserved across the year-end tick
from 23:59:59 on 31 December 2003. -/
theorem c4_tick_time_normalized_witness :
    normalizedDate (tick_time ⟨59, 59, 23, 31, 12, 2003⟩) :=
  c4_tick_time_normalized ⟨59, 59, 23, 31, 12, 2003⟩ (by decide)

/-- The Up press of the watering edit always leaves a configured
window configured. -/
theorem watering_up_press_some (index : Nat) (p : Preferences)
    (hp : p.watering.isSome = true) :
    (watering_up_press index p).watering.isSome = true := by
  have h0 : p.watering.isNone = false := by
    cases hw : p.watering <;> simp_all
  simp only [watering_up_press, h0, Bool.false_eq_true, if_false]
  rcases index with _ | _ | _ | _ | n <;> exact hp

/-- The Down press of the watering edit always leaves a configured
window configured. -/
theorem watering_down_press_some (index : Nat) (p : Preferences)
    (hp : p.watering.isSome = true) :
    (watering_down_press index p).watering.isSome = true := by
  have h0 : p.watering.isNone = false := by
    cases hw : p.watering <;> simp_all
  simp only [watering_down_press, h0, Bool.false_eq_true, if_false]
  rcases index with _ | _ | _ | _ | n <;> exact hp

/-- The per-field loop of the watering edit preserves a configured
window. -/
theorem watering_field_loop_some :
    ∀ (inputs : List BtnSample) (index : Nat) (ud : Bool) (p : Preferences),
      p.watering.isSome = true →
      ∀ q ud2 r rest, watering_field_loop inputs index ud p = some (q, ud2, r, rest) →
        q.watering.isSome = true := by
  intro inputs
  induction inputs with
  | nil =>
    intro index ud p hp q ud2 r rest h
    simp only [watering_field_loop] at h
    exact Option.noConfusion h
  | cons b bs ih =>
    intro index ud p hp q ud2 r rest h
    have hp2 : (if ud then p.tickTime else p).watering.isSome = true := by
      cases ud <;> simpa [Preferences.tickTime] using hp
    simp only [watering_field_loop] at h
    split at h
    · simp only [Option.some.injEq, Prod.mk.injEq] at h
      obtain ⟨hq, -, -, -⟩ := h
      rw [← hq]
      exact hp2
    · split at h
      · exact ih index _ _ (watering_up_press_some index _ hp2) q ud2 r rest h
      · split at h
        · exact ih index _ _ (watering_down_press_some index _ hp2) q ud2 r rest h
        · split at h
          · simp only [Option.some.injEq, Prod.mk.injEq] at h
            obtain ⟨hq, -, -, -⟩ := h
            rw [← hq]
            exact hp2
          · exact ih index _ _ hp2 q ud2 r rest h

/-- The field sequence of the watering edit never reaches the panicking
unwrap when the window is configured on entry. -/
theorem watering_edit_fields_no_panic :
    ∀ (idxs : List Nat) (inputs : List BtnSample) (ud : Bool) (p : Preferences),
      p.watering.isSome = true →
      watering_edit_fields idxs inputs ud p ≠ WateringEditResult.panicked := by
  intro idxs
  induction idxs with
  | nil =>
    intro inputs ud p hp
    cases hw : p.watering with
    | none => simp [hw] at hp
    | some w =>
      simp only [watering_edit_fields, watering_commit, Bool.false_eq_true, if_false, hw]
      split <;> simp
  | cons i rest ih =>
    intro inputs ud p hp
    simp only [watering_edit_fields]
    cases hfl : watering_field_loop inputs i ud p with
    | none => simp
    | some res =>
      obtain ⟨q, ud2, r, rem⟩ := res
      have hq := watering_field_loop_some inputs i ud p hp q ud2 r rem hfl
      dsimp only
      split
      · simp [watering_commit]
      · exact ih rem ud2 q hq

/-- C9 (counterexample): the watering-edit session that starts with no
window configured and exits each of the four field loops with a
Select-only press reaches the commit legality check with
`preferences.watering` still `None`, so the `unwrap` there panics —
the claim asserts this very session leaves the window `Some`. -/
theorem c9_select_only_session_panics :
    watering_edit
      [⟨false, false, true⟩, ⟨false, false, true⟩, ⟨false, false, true⟩,
        ⟨false, false, true⟩]
      Preferences.default = WateringEditResult.panicked := by
  decide

/-- C9 (amended): the commit unwrap cannot panic provided a watering
window is configured when the edit session starts (presses only ever
seed or keep a window, never clear it before the commit); the
Select-only session from an unconfigured window, by contrast, panics. -/
theorem c9_watering_commit_no_panic (inputs : List BtnSample) (p : Preferences)
    (hp : p.watering.isSome = true) :
    watering_edit inputs p ≠ WateringEditResult.panicked := by
  unfold watering_edit
  exact watering_edit_fields_no_panic [0, 1, 2, 3] inputs false p hp

/-- C9 (witness): the no-panic theorem applied to a configured-window
session exited by four Select-only presses. -/
theorem c9_watering_commit_no_panic_witness :
    ({ temperature := (60, 80), humidity := (60, 70),
       date := ⟨0, 0, 0, 1, 1, 2000⟩,
       watering := some ⟨0, 0, 0, 1⟩ } : Preferences).watering.isSome = true ∧
    watering_edit
      [⟨false, false, true⟩, ⟨false, false, true⟩, ⟨false, false, true⟩,
        ⟨false, false, true⟩]
      { temperature := (60, 80), humidity := (60, 70),
        date := ⟨0, 0, 0, 1, 1, 2000⟩,
        watering := some ⟨0, 0, 0, 1⟩ } ≠ WateringEditResult.panicked :=
  ⟨by decide, c9_watering_commit_no_panic _ _ (by decide)⟩

/-- C6 (witness): the sorting commit applied to the illegal pair
(70, 60) and to the legal pair (60, 80). -/
theorem c6_commit_range_sorts_witness :
    commit_range (70, 60) = (60, 70) ∧ commit_range (60, 80) = (60, 80) := by
  constructor
  · have := c6_commit_range_sorts 70 60
    simpa using this
  · have := c6_commit_range_sorts 60 80
    simpa using this
